import Mathlib

/-!
Verification development for the books.toscrape.com catalog scraper
(src/scraper.py). The Python source is shallowly embedded: pure parsing
helpers become Lean functions over `List Char` / `String`, the HTML tree
is abstracted to the exact selector results the source reads, the HTTP
layer becomes an oracle `String → Option Documento` (`none` models the
caught `requests.RequestException`), and the unbounded crawl loop becomes
a fuel-indexed recursion whose `none` result means "fuel exhausted before
the cursor became none". Logging and the politeness sleep have no
observable effect on the accumulated data and are not modelled.
-/

namespace Scraper

/-! ### Constants (scraper.py lines 36-51) -/

def URL_BASE : String := "http://books.toscrape.com/"

def URL_INICIAL : String := URL_BASE ++ "catalogue/page-1.html"

/-- MAPA_VALORACIONES from the source: the five case-sensitive English
words naming star ratings, in the dict's insertion order. -/
def MAPA_VALORACIONES : List (String × Nat) :=
  [("One", 1), ("Two", 2), ("Three", 3), ("Four", 4), ("Five", 5)]

/-! ### Character classes, from CPython's Unicode tables.
`esNd` is the Unicode decimal-digit class Nd — what the `re` module's
`\d` (on str patterns) and `int()` accept: every Nd character sits in a
run of ten consecutive codepoints with digit values 0..9, and
`iniciosNd` lists the 66 run bases. `esBlanco` is `str.isspace()` — the
set `str.strip()` removes. `esBlancoC` is the C-locale whitespace the
float parser itself skips. `esDigito` is ASCII `[0-9]`, the digit class
of the float grammar after CPython's decimal-and-space-to-ASCII
transform (`aAscii` below). -/

def digitos : List Char := ['0', '1', '2', '3', '4', '5', '6', '7', '8', '9']

def esDigito (c : Char) : Bool := '0' ≤ c && c ≤ '9'

def iniciosNd : List Nat :=
  [0x30, 0x660, 0x6f0, 0x7c0, 0x966, 0x9e6, 0xa66, 0xae6, 0xb66, 0xbe6,
   0xc66, 0xce6, 0xd66, 0xde6, 0xe50, 0xed0, 0xf20, 0x1040, 0x1090, 0x17e0,
   0x1810, 0x1946, 0x19d0, 0x1a80, 0x1a90, 0x1b50, 0x1bb0, 0x1c40, 0x1c50,
   0xa620, 0xa8d0, 0xa900, 0xa9d0, 0xa9f0, 0xaa50, 0xabf0, 0xff10, 0x104a0,
   0x10d30, 0x11066, 0x110f0, 0x11136, 0x111d0, 0x112f0, 0x11450, 0x114d0,
   0x11650, 0x116c0, 0x11730, 0x118e0, 0x11950, 0x11c50, 0x11d50, 0x11da0,
   0x16a60, 0x16ac0, 0x16b50, 0x1d7ce, 0x1d7d8, 0x1d7e2, 0x1d7ec, 0x1d7f6,
   0x1e140, 0x1e2f0, 0x1e950, 0x1fbf0]

def esNd (c : Char) : Bool :=
  iniciosNd.any (fun b => b ≤ c.toNat && c.toNat ≤ b + 9)

/-- The digit value of an Nd character (`unicodedata.decimal`): its
offset inside its run. -/
def valorNd (c : Char) : Nat :=
  match iniciosNd.find? (fun b => b ≤ c.toNat && c.toNat ≤ b + 9) with
  | some b => c.toNat - b
  | none => 0

/-- Codepoints with `str.isspace()` true. -/
def espaciosPython : List Char :=
  ['\x09', '\x0a', '\x0b', '\x0c', '\x0d', '\x1c', '\x1d', '\x1e',
   '\x1f', ' ', '\u0085', '\u00a0', '\u1680', '\u2000', '\u2001',
   '\u2002', '\u2003', '\u2004', '\u2005', '\u2006', '\u2007',
   '\u2008', '\u2009', '\u200a', '\u2028', '\u2029', '\u202f',
   '\u205f', '\u3000']

def esBlanco (c : Char) : Bool := c ∈ espaciosPython

/-- C-locale `isspace`, used by the float parser itself. -/
def esBlancoC (c : Char) : Bool :=
  c = ' ' || c = '\t' || c = '\n' || c = '\x0b' || c = '\x0c' || c = '\r'

def stripCon (p : Char → Bool) (cs : List Char) : List Char :=
  ((cs.dropWhile p).reverse.dropWhile p).reverse

/-- Python `str.strip()` with no argument: drop `str.isspace()`
characters from both ends. -/
def pyStripChars (cs : List Char) : List Char := stripCon esBlanco cs

def pyStrip (s : String) : String := String.mk (pyStripChars s.data)

/-- The value of an ASCII digit string, most significant digit first. -/
def valorDigitos (ds : List Char) : Nat :=
  ds.foldl (fun n c => 10 * n + (c.toNat - 48)) 0

/-- The value of an Nd digit string (`int()` on a `\d+` match). -/
def valorDigitosNd (ds : List Char) : Nat :=
  ds.foldl (fun n c => 10 * n + valorNd c) 0

/-- Python `texto.replace("£", "")`: for a one-character pattern replaced
by the empty string this removes every occurrence of that character. -/
def quitarLibras (cs : List Char) : List Char := cs.filter (fun c => c != '£')

/-! ### A model of Python `float(text)`, following CPython's pipeline:
(1) `_PyUnicode_TransformDecimalAndSpaceToASCII` maps every Unicode
decimal digit to its ASCII digit and every non-ASCII whitespace
character to a space (`aAscii`); (2) underscores are checked to be
digit-separating and removed (`quitarGuiones`); (3) the parser skips
C-locale whitespace at both ends, reads an optional single sign, and
accepts the words nan, inf, infinity (ASCII case-insensitive) or a
finite decimal literal `digits [. digits]` / `. digits` with an optional
`e`/`E` exponent. `none` models the `ValueError`. Finite values are kept
exactly (the spec reads the price as a decimal amount). -/

/-- CPython's decimal-and-space-to-ASCII transform: Unicode digits
become ASCII digits, non-ASCII whitespace becomes a space; every other
character is left to fail the grammar just as CPython's '?' marker
does. -/
def aAscii (c : Char) : Char :=
  if esNd c then Char.ofNat (48 + valorNd c)
  else if 128 ≤ c.toNat && esBlanco c then ' '
  else c

/-- ASCII lower-casing, for the case-insensitive nan/inf/infinity
words. -/
def aMinuscula (c : Char) : Char :=
  if 'A' ≤ c && c ≤ 'Z' then Char.ofNat (c.toNat + 32) else c

/-- Underscore validation and removal
(`_Py_string_to_number_with_underscores`): each underscore must be
immediately preceded and followed by an ASCII digit; `none` models the
`ValueError` for a misplaced underscore. `prev` is the character just
before the rest of the input. -/
def quitarGuionesAux (prev : Option Char) : List Char → Option (List Char)
  | [] => some []
  | c :: rest =>
    if c = '_' then
      match prev, rest.head? with
      | some p, some r =>
        if esDigito p && esDigito r then quitarGuionesAux (some c) rest
        else none
      | _, _ => none
    else
      (quitarGuionesAux (some c) rest).map (fun l => c :: l)

def quitarGuiones (cs : List Char) : Option (List Char) :=
  quitarGuionesAux none cs

def signoNeg (cs : List Char) : Bool := cs.head? = some '-'

def signoResto (cs : List Char) : List Char :=
  if cs.head? = some '+' ∨ cs.head? = some '-' then cs.tail else cs

def parseExponente (cs : List Char) : Option Int :=
  let r := signoResto cs
  let ds := r.takeWhile esDigito
  if ds = [] ∨ r.dropWhile esDigito ≠ [] then none
  else if signoNeg cs then some (-(valorDigitos ds : Int))
  else some (valorDigitos ds : Int)

/-- An exact decimal value `mant * 10 ^ exp`, in a form whose equality
is structural so that concrete runs evaluate. -/
structure Decimal where
  mant : Int
  exp : Int
deriving DecidableEq

/-- The rational value a `Decimal` denotes. -/
def Decimal.aRat (d : Decimal) : ℚ := (d.mant : ℚ) * 10 ^ d.exp

/-- A Python float as `float()` can produce one: a finite decimal value,
a signed infinity, or NaN (the sign of a NaN is not observable through
comparisons and is not kept). -/
inductive ValorFloat where
  | finito (d : Decimal)
  | infinito (neg : Bool)
  | nan
deriving DecidableEq

/-- Models the Python comparison `v < 0`: false for NaN. -/
def ValorFloat.negativo : ValorFloat → Bool
  | .finito d => d.mant < 0
  | .infinito neg => neg
  | .nan => false

/-- Models the Python comparison `0 <= v`: false for NaN. -/
def ValorFloat.noNegativo : ValorFloat → Bool
  | .finito d => 0 ≤ d.mant
  | .infinito neg => !neg
  | .nan => false

def aplicarSigno (neg : Bool) (n : Int) : Int := if neg then -n else n

def terminarFloat (neg : Bool) (ip fp resto : List Char) : Option Decimal :=
  let mant := aplicarSigno neg
    (valorDigitos ip * 10 ^ fp.length + valorDigitos fp : Int)
  if resto = [] then some ⟨mant, -(fp.length : Int)⟩
  else if resto.head? = some 'e' ∨ resto.head? = some 'E' then
    (parseExponente resto.tail).map
      (fun ex => ⟨mant, ex - (fp.length : Int)⟩)
  else none

/-- The finite-literal grammar after sign removal. -/
def pyFloatDigitos (neg : Bool) (cs1 : List Char) : Option Decimal :=
  let ip := cs1.takeWhile esDigito
  let r1 := cs1.dropWhile esDigito
  if r1.head? = some '.' then
    let fp := r1.tail.takeWhile esDigito
    if ip = [] ∧ fp = [] then none
    else terminarFloat neg ip fp (r1.tail.dropWhile esDigito)
  else if ip = [] then none
  else terminarFloat neg ip [] r1

/-- After sign removal: the special words nan, inf and infinity
(case-insensitive), else the finite grammar. -/
def pyFloatNucleo (neg : Bool) (cs1 : List Char) : Option ValorFloat :=
  if cs1.map aMinuscula = "nan".data then some ValorFloat.nan
  else if cs1.map aMinuscula = "inf".data ∨
      cs1.map aMinuscula = "infinity".data then
    some (ValorFloat.infinito neg)
  else (pyFloatDigitos neg cs1).map ValorFloat.finito

def pyFloat (cs0 : List Char) : Option ValorFloat :=
  match quitarGuiones (cs0.map aAscii) with
  | none => none
  | some csg =>
    pyFloatNucleo (signoNeg (stripCon esBlancoC csg))
      (signoResto (stripCon esBlancoC csg))

/-! ### The declarative numeric grammar.
Modelled from the spec's words "parse the remainder as a decimal number /
fails if the remainder is not numeric": a spec-side description of the
shapes `float()` accepts, stated by decomposition rather than by running
the parser. It is used to state C5's failure direction: whenever
parsear_precio succeeds, the remainder decomposes as below, so every
remainder admitting no such decomposition fails with MalformedPrice. -/

def TodosDigitos (l : List Char) : Prop := ∀ c ∈ l, esDigito c = true

/-- The mantissa of a finite literal: digits, or digits around one dot
with at least one digit present. -/
inductive Mantisa : List Char → Prop where
  | entera (ip : List Char) (h : TodosDigitos ip) (hne : ip ≠ []) :
      Mantisa ip
  | conPunto (ip fp : List Char) (h1 : TodosDigitos ip)
      (h2 : TodosDigitos fp) (hne : ¬(ip = [] ∧ fp = [])) :
      Mantisa (ip ++ '.' :: fp)

/-- An optional exponent part: empty, or e/E, an optional sign and a
nonempty digit run. -/
inductive Exponente : List Char → Prop where
  | vacio : Exponente []
  | conE (c : Char) (sgn ds : List Char) (hc : c = 'e' ∨ c = 'E')
      (hs : sgn = [] ∨ sgn = ['+'] ∨ sgn = ['-'])
      (hd : TodosDigitos ds) (hne : ds ≠ []) :
      Exponente (c :: (sgn ++ ds))

/-- What may stand after the optional sign: one of the words nan, inf,
infinity (ASCII case-insensitive), or a finite literal. -/
inductive CuerpoNumerico : List Char → Prop where
  | palabra (l : List Char)
      (h : l.map aMinuscula = "nan".data ∨ l.map aMinuscula = "inf".data ∨
        l.map aMinuscula = "infinity".data) : CuerpoNumerico l
  | numero (m e : List Char) (hm : Mantisa m) (he : Exponente e) :
      CuerpoNumerico (m ++ e)

/-! ### Field normalizers (scraper.py lines 86-120) -/

/-- parsear_precio: `float(texto_precio.replace("£", "").strip())`.
`none` models the uncaught `ValueError` (the spec's `MalformedPrice`). -/
def parsear_precio (texto_precio : String) : Option ValorFloat :=
  pyFloat (pyStripChars (quitarLibras texto_precio.data))

/-- parsear_stock: `re.search(r"(\d+)", texto)` — the first maximal run
of decimal digits (Unicode class Nd, since the pattern is a str) as the
integer `int()` assigns it, else `None`. -/
def parsear_stock (texto_stock : String) : Option Nat :=
  if (texto_stock.data.dropWhile (fun c => !(esNd c))).isEmpty then none
  else some (valorDigitosNd
    ((texto_stock.data.dropWhile (fun c => !(esNd c))).takeWhile esNd))

/-- parsear_valoracion: the argument models `select_one(".star-rating")`,
`none` being the absent tag (whose `.get` raises `AttributeError`, caught
by the bare `except`), `some clases` the tag's class list. The first class
that is a key of MAPA_VALORACIONES wins; otherwise `None`. -/
def parsear_valoracion (etiqueta_html : Option (List String)) : Option Nat :=
  match etiqueta_html with
  | none => none
  | some clases => clases.findSome? (fun clase => MAPA_VALORACIONES.lookup clase)

/-! ### The document model.
A `Documento` holds exactly what the source reads off a parsed page:
`articulos` is `soup.select("article.product_pod")` in document order, and
`enlaceSiguiente` is the `href` of `soup.select_one("li.next a")` (`none`
when no such anchor exists; the catalog's next anchors always carry an
`href`, so an anchor without one is outside the model). An `Articulo`
holds the per-node selector results, each `none` when the lookup fails
(a missing element or attribute, which raises inside the `try`). -/

structure Articulo where
  tituloAttr : Option String
  textoPrecio : Option String
  clasesValoracion : Option (List String)
  textoDisponibilidad : Option String
deriving DecidableEq

structure Producto where
  titulo : String
  precio : ValorFloat
  valoracion : Option Nat
  cantidad_stock : Option Nat
  texto_stock : String
deriving DecidableEq

structure Documento where
  articulos : List Articulo
  enlaceSiguiente : Option String
deriving DecidableEq

/-! ### Page extraction (scraper.py lines 127-175) -/

/-- The body of the per-article `try` block: title attribute, price text
(then parsear_precio, whose ValueError is caught by the same `except`),
rating classes, availability text. Any raising step yields `none` — the
record is dropped and the loop continues with the next article. -/
def extraerArticulo (articulo : Articulo) : Option Producto :=
  articulo.tituloAttr.bind (fun titulo =>
    articulo.textoPrecio.bind (fun tp =>
      (parsear_precio tp).bind (fun precio =>
        articulo.textoDisponibilidad.map (fun td =>
          let texto_stock := pyStrip td
          { titulo := titulo
            precio := precio
            valoracion := parsear_valoracion articulo.clasesValoracion
            cantidad_stock := parsear_stock texto_stock
            texto_stock := texto_stock }))))

/-- The article loop of scrapear_pagina over an already-fetched page. -/
def extraer (soup : Documento) : List Producto :=
  soup.articulos.filterMap extraerArticulo

/-- scrapear_pagina: fetch the URL itself (obtener_soup); a fetch failure
yields the empty record list. -/
def scrapear_pagina (fetch : String → Option Documento) (url : String) :
    List Producto :=
  match fetch url with
  | none => []
  | some soup => extraer soup

/-! ### Crawl driver (scraper.py lines 182-206) -/

/-- The next-link step of the loop body: obtener_soup(url_actual) again,
then `li.next a`; on success the href is resolved against
URL_BASE ++ "catalogue/". `none` is the terminal cursor. -/
def siguiente_url (fetch : String → Option Documento) (url : String) :
    Option String :=
  match fetch url with
  | none => none
  | some soup =>
    match soup.enlaceSiguiente with
    | none => none
    | some href => some (URL_BASE ++ "catalogue/" ++ href)

/-- The `while url_actual:` loop. The source fetches the current page
twice per iteration — once inside scrapear_pagina and once for the next
link — so the two call sites get their own oracles (`fetchScrape`,
`fetchNext`); the program as written runs with both equal. The `Nat`
argument is fuel: `none` means the loop did not reach the terminal cursor
within that many iterations, `some` is the accumulated record list. -/
def crawlGen (fetchScrape fetchNext : String → Option Documento) :
    Nat → Option String → List Producto → Option (List Producto)
  | _, none, acc => some acc
  | 0, some _, _ => none
  | n + 1, some url, acc =>
    crawlGen fetchScrape fetchNext n (siguiente_url fetchNext url)
      (acc ++ scrapear_pagina fetchScrape url)

/-- obtener_todos_los_productos: the crawl from URL_INICIAL with one
fetch oracle at both call sites. -/
def obtener_todos_los_productos (fetch : String → Option Documento)
    (fuel : Nat) : Option (List Producto) :=
  crawlGen fetch fetch fuel (some URL_INICIAL) []

/-- The cursor chain: `cursorN fetch k c` is the cursor after `k` loop
iterations starting from cursor `c`. -/
def cursorN (fetch : String → Option Documento) :
    Nat → Option String → Option String
  | 0, c => c
  | k + 1, c =>
    cursorN fetch k
      (match c with
       | none => none
       | some url => siguiente_url fetch url)

/-- A fetch-successful chain of pages from `url`: every page in `ds`
fetches successfully and carries a next link to its successor, and the
page after the last one fails to fetch. -/
inductive Cadena (fetch : String → Option Documento) :
    String → List Documento → Prop where
  | falla (u : String) (hf : fetch u = none) : Cadena fetch u []
  | paso (u : String) (d : Documento) (href : String) (ds : List Documento)
      (hf : fetch u = some d) (he : d.enlaceSiguiente = some href)
      (hr : Cadena fetch (URL_BASE ++ "catalogue/" ++ href) ds) :
      Cadena fetch u (d :: ds)

/-- The reference crawl driver from the spec's words: each page is fetched
exactly once, the one document serving both record extraction and the
next-link lookup; a fetch failure ends the crawl with the accumulator. -/
def crawlReferencia (fetch : String → Option Documento) :
    Nat → Option String → List Producto → Option (List Producto)
  | _, none, acc => some acc
  | 0, some _, _ => none
  | n + 1, some url, acc =>
    match fetch url with
    | none => some acc
    | some soup =>
      crawlReferencia fetch n
        (soup.enlaceSiguiente.map (fun href => URL_BASE ++ "catalogue/" ++ href))
        (acc ++ extraer soup)

/-! ### Export sinks (scraper.py lines 213-263) and the entry point.
The sinks are modelled up to the structure the claims speak about: the
CSV file as header plus one rendered row per record, the JSON document as
one field-name/value object per record, the SQLite table as rows keyed by
the autoincrement id. Field-value rendering is abstracted into `filaDe`.
`guardar_csv` evaluates `datos[0].keys()`, which raises `IndexError` on
the empty list — modelled by `none`. -/

def camposProducto : List String :=
  ["titulo", "precio", "valoracion", "cantidad_stock", "texto_stock"]

def mostrarOpcNat : Option Nat → String
  | none => ""
  | some n => toString n

/-- Abstract rendering of the price value (Python writes the float's
repr; the claims never inspect this text). -/
def mostrarValor : ValorFloat → String
  | .finito d => toString d.mant ++ "e" ++ toString d.exp
  | .infinito neg => if neg then "-inf" else "inf"
  | .nan => "nan"

def filaDe (p : Producto) : List String :=
  [p.titulo, mostrarValor p.precio, mostrarOpcNat p.valoracion,
   mostrarOpcNat p.cantidad_stock, p.texto_stock]

structure ArchivoCSV where
  cabecera : List String
  filas : List (List String)
deriving DecidableEq

def guardar_csv (datos : List Producto) : Option ArchivoCSV :=
  match datos with
  | [] => none
  | _ :: _ => some { cabecera := camposProducto, filas := datos.map filaDe }

def guardar_json (datos : List Producto) : List (List (String × String)) :=
  datos.map (fun p => camposProducto.zip (filaDe p))

structure BaseDatos where
  filas : List (Nat × Producto)
deriving DecidableEq

def guardar_sqlite (datos : List Producto) : BaseDatos :=
  { filas := ((List.range datos.length).map (fun i => i + 1)).zip datos }

structure Salida where
  csv : ArchivoCSV
  jsonExportado : List (List (String × String))
  bd : BaseDatos
deriving DecidableEq

/-- The `__main__` block after the crawl has produced `datos`: CSV first,
then JSON, then SQLite. An exception in guardar_csv crashes the process
before the other two sinks run — modelled by `none`. -/
def principal (datos : List Producto) : Option Salida :=
  match guardar_csv datos with
  | none => none
  | some c =>
    some { csv := c, jsonExportado := guardar_json datos,
           bd := guardar_sqlite datos }

/-! ### Concrete instances used by witnesses and counterexamples. -/

def articuloA : Articulo :=
  { tituloAttr := some "A", textoPrecio := some "£51.77",
    clasesValoracion := some ["star-rating", "Three"],
    textoDisponibilidad := some "In stock (19 available)" }

def productoA : Producto :=
  { titulo := "A", precio := ValorFloat.finito ⟨5177, -2⟩, valoracion := some 3,
    cantidad_stock := some 19, texto_stock := "In stock (19 available)" }

def articuloB : Articulo :=
  { tituloAttr := some "B", textoPrecio := some "£5.00",
    clasesValoracion := some ["star-rating"],
    textoDisponibilidad := some "Out of stock" }

def productoB : Producto :=
  { titulo := "B", precio := ValorFloat.finito ⟨500, -2⟩, valoracion := none,
    cantidad_stock := none, texto_stock := "Out of stock" }

/-- An article whose `.price_color` element is missing: the lookup raises
and the record is dropped. -/
def articuloMalo : Articulo :=
  { tituloAttr := some "M", textoPrecio := none,
    clasesValoracion := none, textoDisponibilidad := some "In stock" }

/-- An article whose anchor carries `title=""`: present but empty. -/
def articuloTituloVacio : Articulo :=
  { tituloAttr := some "", textoPrecio := some "£1.00",
    clasesValoracion := none, textoDisponibilidad := some "In stock" }

def productoTituloVacio : Producto :=
  { titulo := "", precio := ValorFloat.finito ⟨100, -2⟩, valoracion := none,
    cantidad_stock := none, texto_stock := "In stock" }

/-- An article whose price text denotes a negative number. -/
def articuloNegativo : Articulo :=
  { tituloAttr := some "N", textoPrecio := some "-5.00",
    clasesValoracion := none, textoDisponibilidad := some "In stock" }

def productoNegativo : Producto :=
  { titulo := "N", precio := ValorFloat.finito ⟨-500, -2⟩, valoracion := none,
    cantidad_stock := none, texto_stock := "In stock" }

/-- An article whose price text is the word nan, which float() accepts:
the record is emitted with a NaN price. -/
def articuloNan : Articulo :=
  { tituloAttr := some "X", textoPrecio := some "nan",
    clasesValoracion := none, textoDisponibilidad := some "In stock" }

def productoNan : Producto :=
  { titulo := "X", precio := ValorFloat.nan, valoracion := none,
    cantidad_stock := none, texto_stock := "In stock" }

def fetchNan : String → Option Documento := fun _ =>
  some { articulos := [articuloNan], enlaceSiguiente := none }

def documento1 : Documento :=
  { articulos := [articuloA], enlaceSiguiente := some "page-2.html" }

def documentoC : Documento :=
  { articulos := [articuloB], enlaceSiguiente := none }

def urlPagina2 : String := URL_BASE ++ "catalogue/" ++ "page-2.html"

/-- Page 1 fetches fine and links to page 2; page 2's fetch fails. -/
def fetchFallaP2 : String → Option Documento := fun u =>
  if u = URL_INICIAL then some documento1 else none

def fetchTituloVacio : String → Option Documento := fun _ =>
  some { articulos := [articuloTituloVacio], enlaceSiguiente := none }

def fetchNegativo : String → Option Documento := fun _ =>
  some { articulos := [articuloNegativo], enlaceSiguiente := none }

def fetchSinSiguiente : String → Option Documento := fun _ =>
  some { articulos := [], enlaceSiguiente := none }

/-- Next-link oracle for the double-fetch scenario: page 1 links to page
2, page 2 has no next link. -/
def fetchNextEj : String → Option Documento := fun u =>
  if u = URL_INICIAL then some documento1
  else if u = urlPagina2 then some documentoC
  else none

/-- Extraction oracle for the double-fetch scenario: the extraction fetch
of page 1 fails, but page 2 still fetches fine. -/
def fetchScrapeEj : String → Option Documento := fun u =>
  if u = URL_INICIAL then none else fetchNextEj u

/-! ### Helper lemmas about takeWhile / dropWhile / filterMap. -/

theorem takeWhile_de_todos (p : Char → Bool) (l : List Char)
    (h : ∀ c ∈ l, p c = true) : l.takeWhile p = l := by
  induction l with
  | nil => rfl
  | cons a t ih =>
    have ha := h a (List.mem_cons_self a t)
    simp only [List.takeWhile_cons, ha, if_true]
    rw [ih (fun c hc => h c (List.mem_cons_of_mem a hc))]

theorem dropWhile_de_todos (p : Char → Bool) (l : List Char)
    (h : ∀ c ∈ l, p c = true) : l.dropWhile p = [] := by
  induction l with
  | nil => rfl
  | cons a t ih =>
    have ha := h a (List.mem_cons_self a t)
    simp only [List.dropWhile_cons, ha, if_true]
    exact ih (fun c hc => h c (List.mem_cons_of_mem a hc))

theorem dropWhile_de_ninguno (p : Char → Bool) (l : List Char)
    (h : ∀ c ∈ l, p c = false) : l.dropWhile p = l := by
  cases l with
  | nil => rfl
  | cons a t =>
    have ha := h a (List.mem_cons_self a t)
    simp only [List.dropWhile_cons, ha]
    simp

theorem takeWhile_append_corte (p : Char → Bool) (l r : List Char)
    (hl : ∀ c ∈ l, p c = true) (hr : ∀ c, r.head? = some c → p c = false) :
    (l ++ r).takeWhile p = l := by
  induction l with
  | nil =>
    cases r with
    | nil => rfl
    | cons c t =>
      have := hr c rfl
      simp [List.takeWhile_cons, this]
  | cons a t ih =>
    have ha := hl a (List.mem_cons_self a t)
    simp only [List.cons_append, List.takeWhile_cons, ha, if_true]
    rw [ih (fun c hc => hl c (List.mem_cons_of_mem a hc))]

theorem dropWhile_append_corte (p : Char → Bool) (l r : List Char)
    (hl : ∀ c ∈ l, p c = true) (hr : ∀ c, r.head? = some c → p c = false) :
    (l ++ r).dropWhile p = r := by
  induction l with
  | nil =>
    cases r with
    | nil => rfl
    | cons c t =>
      have := hr c rfl
      simp [List.dropWhile_cons, this]
  | cons a t ih =>
    have ha := hl a (List.mem_cons_self a t)
    simp only [List.cons_append, List.dropWhile_cons, ha, if_true]
    exact ih (fun c hc => hl c (List.mem_cons_of_mem a hc))

theorem mem_de_dropWhile (p : Char → Bool) (l : List Char) (c : Char)
    (h : c ∈ l.dropWhile p) : c ∈ l := by
  induction l with
  | nil => exact absurd h (by simp)
  | cons a t ih =>
    by_cases hp : p a = true
    · simp only [List.dropWhile_cons, hp, if_true] at h
      exact List.mem_cons_of_mem a (ih h)
    · simp only [List.dropWhile_cons, hp] at h
      simpa using h

theorem mem_de_pyStripChars (l : List Char) (c : Char)
    (h : c ∈ pyStripChars l) : c ∈ l := by
  unfold pyStripChars stripCon at h
  rw [List.mem_reverse] at h
  have h2 := mem_de_dropWhile _ _ _ h
  rw [List.mem_reverse] at h2
  exact mem_de_dropWhile _ _ _ h2

theorem length_filterMap_de_todos {α β : Type} (f : α → Option β)
    (l : List α) (h : ∀ a ∈ l, (f a).isSome = true) :
    (l.filterMap f).length = l.length := by
  induction l with
  | nil => rfl
  | cons a t ih =>
    obtain ⟨b, hb⟩ := Option.isSome_iff_exists.mp (h a (List.mem_cons_self a t))
    simp only [List.filterMap_cons, hb, List.length_cons]
    rw [ih (fun x hx => h x (List.mem_cons_of_mem a hx))]

/-! ### Character-class lemmas. -/

theorem esDigito_ne (c d : Char) (h : esDigito c = true)
    (hd : esDigito d = false) : c ≠ d := by
  intro e
  rw [e, hd] at h
  cases h

theorem esDigito_enumera (c : Char) (h : esDigito c = true) : c ∈ digitos := by
  have h48 : 48 ≤ c.toNat ∧ c.toNat ≤ 57 := by
    simp only [esDigito, Bool.and_eq_true, decide_eq_true_eq] at h
    exact ⟨h.1, h.2⟩
  have hc : c = Char.ofNat c.toNat := (Char.ofNat_toNat c).symm
  obtain ⟨h1, h2⟩ := h48
  set n := c.toNat with hn
  rw [hc]
  interval_cases n <;> decide

theorem esDigito_no_blanco (c : Char) (h : esDigito c = true) :
    esBlanco c = false := by
  have := esDigito_enumera c h
  fin_cases this <;> decide

theorem esDigito_no_blancoC (c : Char) (h : esDigito c = true) :
    esBlancoC c = false := by
  have := esDigito_enumera c h
  fin_cases this <;> decide

theorem esDigito_no_libra (c : Char) (h : esDigito c = true) :
    (c != '£') = true := by
  have := esDigito_enumera c h
  fin_cases this <;> decide

theorem esDigito_no_guion (c : Char) (h : esDigito c = true) : c ≠ '_' := by
  have := esDigito_enumera c h
  fin_cases this <;> decide

theorem esDigito_aAscii (c : Char) (h : esDigito c = true) : aAscii c = c := by
  have := esDigito_enumera c h
  fin_cases this <;> decide

theorem esDigito_aMinuscula (c : Char) (h : esDigito c = true) :
    aMinuscula c = c := by
  have := esDigito_enumera c h
  fin_cases this <;> decide

theorem valorNd_le (c : Char) : valorNd c ≤ 9 := by
  unfold valorNd
  cases hf : iniciosNd.find? (fun b => b ≤ c.toNat && c.toNat ≤ b + 9) with
  | none => exact Nat.zero_le 9
  | some b =>
    have hp := List.find?_some hf
    simp only [Bool.and_eq_true, decide_eq_true_eq] at hp
    show c.toNat - b ≤ 9
    omega

theorem aAscii_eq_menos (c : Char) (h : aAscii c = '-') : c = '-' := by
  unfold aAscii at h
  split_ifs at h with h1 h2
  · exfalso
    have hv := valorNd_le c
    set v := valorNd c with hvdef
    interval_cases v <;> exact absurd h (by decide)
  · exact absurd h (by decide)
  · exact h

theorem map_fija (f : Char → Char) (l : List Char)
    (h : ∀ c ∈ l, f c = c) : l.map f = l := by
  induction l with
  | nil => rfl
  | cons a t ih =>
    rw [List.map_cons, h a (List.mem_cons_self a t),
      ih (fun c hc => h c (List.mem_cons_of_mem a hc))]

theorem todos_takeWhile (p : Char → Bool) (l : List Char) :
    ∀ c ∈ l.takeWhile p, p c = true := by
  induction l with
  | nil => simp
  | cons a t ih =>
    by_cases hp : p a = true
    · simp only [List.takeWhile_cons, hp, if_true]
      intro c hc
      rcases List.mem_cons.mp hc with rfl | hc2
      · exact hp
      · exact ih c hc2
    · simp only [List.takeWhile_cons, hp]
      simp

/-! ### Reduction and inversion lemmas for the float model. -/

theorem mem_de_stripCon (p : Char → Bool) (l : List Char) (c : Char)
    (h : c ∈ stripCon p l) : c ∈ l := by
  unfold stripCon at h
  rw [List.mem_reverse] at h
  have h2 := mem_de_dropWhile _ _ _ h
  rw [List.mem_reverse] at h2
  exact mem_de_dropWhile _ _ _ h2

theorem stripCon_de_ninguno (p : Char → Bool) (l : List Char)
    (h : ∀ c ∈ l, p c = false) : stripCon p l = l := by
  unfold stripCon
  rw [dropWhile_de_ninguno _ _ h]
  rw [dropWhile_de_ninguno _ _ (fun c hc => h c (List.mem_reverse.mp hc))]
  exact List.reverse_reverse l

theorem mem_de_quitarGuionesAux (cs : List Char) :
    ∀ (prev : Option Char) (out : List Char),
      quitarGuionesAux prev cs = some out → ∀ c ∈ out, c ∈ cs := by
  induction cs with
  | nil =>
    intro prev out h c hc
    injection h with h
    subst h
    exact absurd hc (by simp)
  | cons a rest ih =>
    intro prev out h c hc
    simp only [quitarGuionesAux] at h
    split at h
    · split at h
      · split at h
        · exact List.mem_cons_of_mem _ (ih _ _ h c hc)
        · exact Option.noConfusion h
      · exact Option.noConfusion h
    · cases hq : quitarGuionesAux (some a) rest with
      | none => rw [hq] at h; exact Option.noConfusion h
      | some l2 =>
        rw [hq] at h
        simp only [Option.map_some'] at h
        injection h with h
        subst h
        rcases List.mem_cons.mp hc with rfl | hc2
        · exact List.mem_cons_self _ _
        · exact List.mem_cons_of_mem _ (ih _ _ hq c hc2)

theorem mem_de_quitarGuiones (cs out : List Char)
    (h : quitarGuiones cs = some out) : ∀ c ∈ out, c ∈ cs :=
  mem_de_quitarGuionesAux cs none out h

theorem quitarGuionesAux_sin_guion (cs : List Char) :
    ∀ prev : Option Char, (∀ c ∈ cs, c ≠ '_') →
      quitarGuionesAux prev cs = some cs := by
  induction cs with
  | nil => intro prev h; rfl
  | cons a rest ih =>
    intro prev h
    have ha := h a (List.mem_cons_self a rest)
    simp only [quitarGuionesAux, if_neg ha]
    rw [ih (some a) (fun c hc => h c (List.mem_cons_of_mem a hc))]
    rfl

theorem quitarGuiones_sin_guion (cs : List Char)
    (h : ∀ c ∈ cs, c ≠ '_') : quitarGuiones cs = some cs :=
  quitarGuionesAux_sin_guion cs none h

theorem signoNeg_sin_menos (l : List Char) (h : '-' ∉ l) :
    signoNeg l = false := by
  unfold signoNeg
  cases l with
  | nil => rfl
  | cons a t =>
    simp only [List.head?_cons, decide_eq_false_iff_not]
    intro he
    injection he with he2
    subst he2
    exact h (List.mem_cons_self _ _)

theorem signoNeg_cons (a : Char) (t : List Char) (h : a ≠ '-') :
    signoNeg (a :: t) = false := by
  unfold signoNeg
  simp [List.head?_cons, h]

theorem signoResto_sin_signo (a : Char) (t : List Char)
    (h1 : a ≠ '+') (h2 : a ≠ '-') : signoResto (a :: t) = a :: t := by
  unfold signoResto
  simp [List.head?_cons, h1, h2]

/-- Every list is its sign-stripped rest, or a sign followed by it. -/
theorem signoResto_descompone (w : List Char) :
    signoResto w = w ∨
      ∃ sg, (sg = '+' ∨ sg = '-') ∧ w = sg :: signoResto w := by
  unfold signoResto
  cases w with
  | nil => exact Or.inl rfl
  | cons a t =>
    by_cases h : (a :: t).head? = some '+' ∨ (a :: t).head? = some '-'
    · rw [if_pos h]
      refine Or.inr ⟨a, ?_, rfl⟩
      rcases h with h | h <;> [left; right] <;>
        exact Option.some.inj (List.head?_cons ▸ h)
    · rw [if_neg h]
      exact Or.inl rfl

theorem aRat_noNeg_de_mant (d : Decimal) (h : 0 ≤ d.mant) : 0 ≤ d.aRat := by
  unfold Decimal.aRat
  have h1 : (0 : ℚ) ≤ (d.mant : ℚ) := by exact_mod_cast h
  have h2 : (0 : ℚ) < (10 : ℚ) ^ d.exp := by positivity
  exact mul_nonneg h1 h2.le

theorem aRat_neg_de_mant (d : Decimal) (h : d.mant < 0) : d.aRat < 0 := by
  unfold Decimal.aRat
  have h1 : (d.mant : ℚ) < 0 := by exact_mod_cast h
  have h2 : (0 : ℚ) < (10 : ℚ) ^ d.exp := by positivity
  exact mul_neg_of_neg_of_pos h1 h2

theorem terminarFloat_noNeg (ip fp resto : List Char) (d : Decimal)
    (h : terminarFloat false ip fp resto = some d) : 0 ≤ d.mant := by
  have hm : (0 : Int) ≤ aplicarSigno false
      (valorDigitos ip * 10 ^ fp.length + valorDigitos fp : Int) := by
    simp only [aplicarSigno, if_false, Bool.false_eq_true]
    positivity
  simp only [terminarFloat] at h
  split_ifs at h
  · injection h with h
    rw [← h]
    exact hm
  · cases he : parseExponente resto.tail with
    | none => rw [he] at h; exact absurd h (by simp)
    | some ex =>
      rw [he] at h
      simp only [Option.map_some'] at h
      injection h with h
      rw [← h]
      exact hm

theorem pyFloatDigitos_noNeg (l : List Char) (d : Decimal)
    (h : pyFloatDigitos false l = some d) : 0 ≤ d.mant := by
  simp only [pyFloatDigitos] at h
  split_ifs at h <;> exact terminarFloat_noNeg _ _ _ _ h

theorem pyFloatNucleo_noNegVal (l : List Char) (v : ValorFloat)
    (h : pyFloatNucleo false l = some v) :
    v.negativo = false ∧ ∀ d, v = ValorFloat.finito d → 0 ≤ d.mant := by
  simp only [pyFloatNucleo] at h
  split_ifs at h
  · injection h with h
    subst h
    exact ⟨rfl, fun d hd => ValorFloat.noConfusion hd⟩
  · injection h with h
    subst h
    exact ⟨rfl, fun d hd => ValorFloat.noConfusion hd⟩
  · cases hq : pyFloatDigitos false l with
    | none => rw [hq] at h; exact Option.noConfusion h
    | some d0 =>
      rw [hq] at h
      simp only [Option.map_some'] at h
      injection h with h
      subst h
      have hm := pyFloatDigitos_noNeg _ _ hq
      refine ⟨?_, ?_⟩
      · simp only [ValorFloat.negativo, decide_eq_false_iff_not]
        omega
      · intro d hd
        injection hd with hd
        subst hd
        exact hm

theorem pyFloat_noNeg (cs : List Char) (v : ValorFloat) (hm : '-' ∉ cs)
    (h : pyFloat cs = some v) :
    v.negativo = false ∧ ∀ d, v = ValorFloat.finito d → 0 ≤ d.mant := by
  unfold pyFloat at h
  have hm1 : '-' ∉ cs.map aAscii := by
    intro hc
    obtain ⟨c0, hc0, he⟩ := List.mem_map.mp hc
    exact hm (aAscii_eq_menos c0 he ▸ hc0)
  cases hq : quitarGuiones (cs.map aAscii) with
  | none => rw [hq] at h; exact Option.noConfusion h
  | some csg =>
    simp only [hq] at h
    have hm2 : '-' ∉ stripCon esBlancoC csg := fun hc =>
      hm1 (mem_de_quitarGuiones _ _ hq _ (mem_de_stripCon _ _ _ hc))
    rw [signoNeg_sin_menos _ hm2] at h
    exact pyFloatNucleo_noNegVal _ _ h

theorem datos_mk (cs : List Char) : (String.mk cs).data = cs := rfl

theorem findSome?_de_ninguno {α β : Type} (f : α → Option β) (l : List α)
    (h : ∀ a ∈ l, f a = none) : l.findSome? f = none := by
  induction l with
  | nil => rfl
  | cons a t ih =>
    rw [List.findSome?_cons, h a (List.mem_cons_self a t)]
    exact ih (fun x hx => h x (List.mem_cons_of_mem a hx))

theorem findSome?_primero {α β : Type} (f : α → Option β) (pre rest : List α)
    (c : α) (v : β) (hpre : ∀ a ∈ pre, f a = none) (hc : f c = some v) :
    (pre ++ c :: rest).findSome? f = some v := by
  induction pre with
  | nil => rw [List.nil_append, List.findSome?_cons, hc]
  | cons a t ih =>
    rw [List.cons_append, List.findSome?_cons, hpre a (List.mem_cons_self a t)]
    exact ih (fun x hx => hpre x (List.mem_cons_of_mem a hx))

theorem aRat_mantexp (a b k : Nat) :
    Decimal.aRat ⟨(a * 10 ^ k + b : Int), -(k : Int)⟩ =
      (a : ℚ) + (b : ℚ) / 10 ^ k := by
  unfold Decimal.aRat
  rw [zpow_neg, zpow_natCast]
  push_cast
  have hk : ((10 : ℚ) ^ k) ≠ 0 := by positivity
  field_simp

/-! ## The claims -/

/-- Claim C2 (code_bug): the claim says the entry point completes and all
three sinks write their output for every accumulated record list,
including the empty one. The code contradicts it: with zero records,
guardar_csv evaluates `datos[0].keys()`, which raises IndexError on the
empty list, so the process crashes and neither the JSON file nor the
database is written. -/
theorem c2_lista_vacia_choca : principal [] = none ∧ guardar_csv [] = none :=
  ⟨rfl, rfl⟩

/-- Claim C3 counterexample: a node whose anchor carries a present but
empty `title` attribute is not dropped — scrapear_pagina emits its record
with an empty title, refuting the claim that every emitted record has a
non-empty title. -/
theorem c3_contraejemplo :
    ∃ p ∈ scrapear_pagina fetchTituloVacio URL_INICIAL, p.titulo = "" :=
  ⟨productoTituloVacio, by decide, rfl⟩

/-- Claim C3 (corrected): every emitted record's title is exactly the
node's `title` attribute value, which must be present for the record to
be emitted — a node whose attribute lookup fails is dropped — but the
value is never checked for non-emptiness, so a present-but-empty
attribute yields a record with an empty title. -/
theorem c3_titulo_del_atributo :
    (∀ (a : Articulo) (p : Producto),
        extraerArticulo a = some p → a.tituloAttr = some p.titulo) ∧
    (∀ a : Articulo, a.tituloAttr = none → extraerArticulo a = none) := by
  constructor
  · intro a p h
    simp only [extraerArticulo, Option.bind_eq_some, Option.map_eq_some'] at h
    obtain ⟨tit, htit, tp, htp, prec, hprec, td, htd, hp⟩ := h
    rw [htit, ← hp]
  · intro a h
    simp [extraerArticulo, h]

/-- Claim C3 witness: the corrected statement applied to a concrete
well-formed article. -/
theorem c3_testigo :
    extraerArticulo articuloA = some productoA ∧
    articuloA.tituloAttr = some productoA.titulo :=
  ⟨by decide, c3_titulo_del_atributo.1 articuloA productoA (by decide)⟩

/-- Claim C8 (confirmed): per-node isolation. For a page whose article
list is `pre ++ malo :: post` with every article of `pre` and `post`
extractable and `malo` failing some per-node step, extraction returns
exactly the records of `pre` then `post` in document order — N-1 records
for N articles — and, being a total function, never aborts the page. -/
theorem c8_aislamiento_por_nodo (pre post : List Articulo) (malo : Articulo)
    (enlace : Option String)
    (hpre : ∀ a ∈ pre, (extraerArticulo a).isSome = true)
    (hpost : ∀ a ∈ post, (extraerArticulo a).isSome = true)
    (hmalo : extraerArticulo malo = none) :
    extraer ⟨pre ++ malo :: post, enlace⟩ =
      pre.filterMap extraerArticulo ++ post.filterMap extraerArticulo ∧
    (extraer ⟨pre ++ malo :: post, enlace⟩).length =
      (pre ++ malo :: post).length - 1 := by
  have he : extraer ⟨pre ++ malo :: post, enlace⟩ =
      pre.filterMap extraerArticulo ++ post.filterMap extraerArticulo := by
    unfold extraer
    simp only [List.filterMap_append, List.filterMap_cons, hmalo]
  refine ⟨he, ?_⟩
  rw [he, List.length_append, List.length_append, List.length_cons]
  rw [length_filterMap_de_todos _ _ hpre, length_filterMap_de_todos _ _ hpost]
  omega

/-- Claim C8 witness: one malformed article (missing price element)
between two well-formed ones yields exactly the two good records. -/
theorem c8_testigo :
    extraer ⟨[articuloA] ++ articuloMalo :: [articuloB], none⟩ =
      [articuloA].filterMap extraerArticulo ++
        [articuloB].filterMap extraerArticulo ∧
    (extraer ⟨[articuloA] ++ articuloMalo :: [articuloB], none⟩).length =
      ([articuloA] ++ articuloMalo :: [articuloB]).length - 1 :=
  c8_aislamiento_por_nodo [articuloA] [articuloB] articuloMalo none
    (by decide) (by decide) (by decide)

/-- Claim C9 (confirmed): parsear_valoracion is total (it never raises:
the bare `except` returns None), maps an absent tag to `none`, a class
list with no recognized marker to `none`, and otherwise returns the value
of the first marker in iteration order; every value produced by the
marker map lies in {1,...,5}. -/
theorem c9_valoracion :
    parsear_valoracion none = none ∧
    (∀ clases : List String,
        (∀ c ∈ clases, MAPA_VALORACIONES.lookup c = none) →
        parsear_valoracion (some clases) = none) ∧
    (∀ (pre rest : List String) (c : String) (v : Nat),
        (∀ x ∈ pre, MAPA_VALORACIONES.lookup x = none) →
        MAPA_VALORACIONES.lookup c = some v →
        parsear_valoracion (some (pre ++ c :: rest)) = some v) ∧
    (∀ (c : String) (v : Nat),
        MAPA_VALORACIONES.lookup c = some v → 1 ≤ v ∧ v ≤ 5) := by
  refine ⟨rfl, ?_, ?_, ?_⟩
  · intro clases h
    exact findSome?_de_ninguno _ _ h
  · intro pre rest c v hpre hc
    exact findSome?_primero _ _ _ _ _ hpre hc
  · intro c v h
    simp only [MAPA_VALORACIONES, List.lookup_cons] at h
    repeat' split at h
    all_goals first
      | (injection h with h; omega)
      | exact absurd h (by simp)

/-- Claim C9 witness: the unrecognized class is skipped and the marker
Three maps to 3. -/
theorem c9_testigo :
    parsear_valoracion (some (["star-rating"] ++ "Three" :: [])) = some 3 :=
  c9_valoracion.2.2.1 ["star-rating"] [] "Three" 3 (by decide) (by decide)

/-- Claim C10 (confirmed): parsear_stock is total; on text with no
decimal digit (Unicode class Nd, the `\d` of a str-pattern regex) it
returns `none`, and on text of the form `pre ++ run ++ post` — `pre`
digit-free, `run` a nonempty maximal digit run (`post` does not start
with a digit) — it returns the run's numeric value, Unicode digit values
included, as `int()` computes it. -/
theorem c10_stock :
    (∀ cs : List Char, (∀ c ∈ cs, esNd c = false) →
        parsear_stock (String.mk cs) = none) ∧
    (∀ pre run post : List Char,
        (∀ c ∈ pre, esNd c = false) → run ≠ [] →
        (∀ c ∈ run, esNd c = true) →
        (∀ c, post.head? = some c → esNd c = false) →
        parsear_stock (String.mk (pre ++ run ++ post)) =
          some (valorDigitosNd run)) := by
  constructor
  · intro cs h
    unfold parsear_stock
    rw [datos_mk, dropWhile_de_todos _ _ (fun c hc => by simp [h c hc])]
    rfl
  · intro pre run post hpre hne hrun hpost
    unfold parsear_stock
    rw [datos_mk, List.append_assoc]
    rw [dropWhile_append_corte _ _ _ (fun c hc => by simp [hpre c hc])
      (fun c hc => by
        cases run with
        | nil => exact absurd rfl hne
        | cons r0 rt =>
          rw [List.cons_append, List.head?_cons] at hc
          injection hc with hc
          subst hc
          simp [hrun r0 (List.mem_cons_self _ _)])]
    cases run with
    | nil => exact absurd rfl hne
    | cons r0 rt =>
      rw [takeWhile_append_corte _ _ _ hrun hpost]
      rfl

/-- Claim C10 witness: the catalog's availability text. -/
theorem c10_testigo :
    parsear_stock (String.mk ("In stock (".data ++ "19".data ++
      " available)".data)) = some (valorDigitosNd "19".data) :=
  c10_stock.2 "In stock (".data "19".data " available)".data
    (by decide) (by decide) (by decide) (by decide)

/-! ### Soundness of the float parser against the declarative grammar:
whatever the parser accepts decomposes as whitespace, an optional sign
and a CuerpoNumerico — so any input admitting no such decomposition is
rejected. -/

theorem parseExponente_inv (cs : List Char) (ex : Int)
    (h : parseExponente cs = some ex) :
    ∃ sgn ds : List Char, (sgn = [] ∨ sgn = ['+'] ∨ sgn = ['-']) ∧
      TodosDigitos ds ∧ ds ≠ [] ∧ cs = sgn ++ ds := by
  simp only [parseExponente] at h
  split_ifs at h with h1 h2
  all_goals
    push_neg at h1
    obtain ⟨hds, hdr⟩ := h1
    have hr : signoResto cs = (signoResto cs).takeWhile esDigito := by
      conv_lhs => rw [← List.takeWhile_append_dropWhile esDigito (signoResto cs)]
      rw [hdr, List.append_nil]
    rcases signoResto_descompone cs with hw | ⟨sg, hsg, hw⟩
    · exact ⟨[], (signoResto cs).takeWhile esDigito, Or.inl rfl,
        todos_takeWhile _ _, hds, by rw [List.nil_append, ← hr, hw]⟩
    · refine ⟨[sg], (signoResto cs).takeWhile esDigito, ?_,
        todos_takeWhile _ _, hds, ?_⟩
      · rcases hsg with rfl | rfl
        · exact Or.inr (Or.inl rfl)
        · exact Or.inr (Or.inr rfl)
      · rw [List.singleton_append]
        conv_lhs => rw [hw, hr]

theorem terminarFloat_inv (neg : Bool) (ip fp resto : List Char)
    (d : Decimal) (h : terminarFloat neg ip fp resto = some d) :
    resto = [] ∨ ∃ c r, resto = c :: r ∧ (c = 'e' ∨ c = 'E') ∧
      ∃ ex, parseExponente r = some ex := by
  simp only [terminarFloat] at h
  split_ifs at h with h1 h2
  · exact Or.inl h1
  · right
    cases resto with
    | nil => exact absurd rfl h1
    | cons c r =>
      simp only [List.head?_cons] at h2
      have hc : c = 'e' ∨ c = 'E' := by
        rcases h2 with h2 | h2
        · exact Or.inl (Option.some.inj h2)
        · exact Or.inr (Option.some.inj h2)
      simp only [List.tail_cons] at h
      cases he : parseExponente r with
      | none => rw [he] at h; exact absurd h (by simp)
      | some ex => exact ⟨c, r, rfl, hc, ex, he⟩

theorem exponente_de_terminar (neg : Bool) (ip fp resto : List Char)
    (d : Decimal) (h : terminarFloat neg ip fp resto = some d) :
    Exponente resto := by
  rcases terminarFloat_inv neg ip fp resto d h with rfl | ⟨c, r, rfl, hc, ex, he⟩
  · exact Exponente.vacio
  · obtain ⟨sgn, ds, hs, hd, hne, rfl⟩ := parseExponente_inv r ex he
    exact Exponente.conE c sgn ds hc hs hd hne

theorem pyFloatDigitos_solo_numerico (neg : Bool) (l : List Char)
    (d : Decimal) (h : pyFloatDigitos neg l = some d) : CuerpoNumerico l := by
  have hl : l.takeWhile esDigito ++ l.dropWhile esDigito = l :=
    List.takeWhile_append_dropWhile esDigito l
  simp only [pyFloatDigitos] at h
  split_ifs at h with hdot hvac hip0
  · -- mantissa with a dot
    obtain ⟨rt, hrt⟩ : ∃ rt, l.dropWhile esDigito = '.' :: rt := by
      cases hr : l.dropWhile esDigito with
      | nil => rw [hr] at hdot; exact absurd hdot (by simp)
      | cons x xs =>
        rw [hr, List.head?_cons] at hdot
        injection hdot with hdot
        exact ⟨xs, by rw [hdot]⟩
    have hrt2 : rt.takeWhile esDigito ++ rt.dropWhile esDigito = rt :=
      List.takeWhile_append_dropWhile esDigito rt
    rw [hrt] at h hvac
    simp only [List.tail_cons] at h hvac
    have hexp := exponente_de_terminar _ _ _ _ _ h
    have hm : Mantisa (l.takeWhile esDigito ++ '.' :: rt.takeWhile esDigito) :=
      Mantisa.conPunto _ _ (todos_takeWhile _ _) (todos_takeWhile _ _) hvac
    have hgoal := CuerpoNumerico.numero _ _ hm hexp
    have hl2 : (l.takeWhile esDigito ++ '.' :: rt.takeWhile esDigito) ++
        rt.dropWhile esDigito = l := by
      rw [List.append_assoc, List.cons_append, hrt2, ← hrt, hl]
    exact hl2 ▸ hgoal
  · -- bare digit mantissa
    have hexp := exponente_de_terminar _ _ _ _ _ h
    have hm : Mantisa (l.takeWhile esDigito) :=
      Mantisa.entera _ (todos_takeWhile _ _) hip0
    exact hl ▸ CuerpoNumerico.numero _ _ hm hexp

theorem pyFloatNucleo_solo_numerico (neg : Bool) (l : List Char)
    (v : ValorFloat) (h : pyFloatNucleo neg l = some v) : CuerpoNumerico l := by
  simp only [pyFloatNucleo] at h
  split_ifs at h with h1 h2
  · exact CuerpoNumerico.palabra l (Or.inl h1)
  · rcases h2 with h2 | h2
    · exact CuerpoNumerico.palabra l (Or.inr (Or.inl h2))
    · exact CuerpoNumerico.palabra l (Or.inr (Or.inr h2))
  · cases hq : pyFloatDigitos neg l with
    | none => rw [hq] at h; exact Option.noConfusion h
    | some d => exact pyFloatDigitos_solo_numerico neg l d hq

theorem pyFloat_solo_numerico (cs : List Char) (v : ValorFloat)
    (h : pyFloat cs = some v) :
    ∃ csg : List Char, quitarGuiones (cs.map aAscii) = some csg ∧
      ∃ cuerpo : List Char, CuerpoNumerico cuerpo ∧
        (stripCon esBlancoC csg = cuerpo ∨
          ∃ sg, (sg = '+' ∨ sg = '-') ∧
            stripCon esBlancoC csg = sg :: cuerpo) := by
  unfold pyFloat at h
  cases hq : quitarGuiones (cs.map aAscii) with
  | none => rw [hq] at h; exact Option.noConfusion h
  | some csg =>
    simp only [hq] at h
    refine ⟨csg, rfl, ?_⟩
    have hn := pyFloatNucleo_solo_numerico _ _ _ h
    rcases signoResto_descompone (stripCon esBlancoC csg) with hw | ⟨sg, hsg, hw⟩
    · exact ⟨signoResto (stripCon esBlancoC csg), hn, Or.inl hw.symm⟩
    · exact ⟨signoResto (stripCon esBlancoC csg), hn, Or.inr ⟨sg, hsg, hw⟩⟩

/-- Claim C4 counterexample: the code never checks the emitted value.
A price text denoting a negative number yields a record whose price is
negative, refuting `price ≥ 0` over all input documents; and the
minus-free price text nan — accepted by float() — yields a NaN price,
for which `price ≥ 0` is also false in Python's comparison semantics,
which forces the amendment to assert "not negative" rather than
"at least zero". -/
theorem c4_contraejemplo :
    (∃ p ∈ scrapear_pagina fetchNegativo URL_INICIAL,
        ∃ d, p.precio = ValorFloat.finito d ∧ d.aRat < 0) ∧
    (∃ p ∈ scrapear_pagina fetchNan URL_INICIAL,
        '-' ∉ "nan".data ∧ p.precio = ValorFloat.nan) :=
  ⟨⟨productoNegativo, by decide, ⟨-500, -2⟩, by decide,
      aRat_neg_de_mant _ (by decide)⟩,
   ⟨productoNan, by decide, by decide, by decide⟩⟩

/-- Claim C4 (corrected): an emitted record whose price text contains no
minus sign never has a negative price — its price compares `< 0` false
(it may be NaN, from text nan, which is neither negative nor
non-negative), and whenever it is a finite value that value is at least
zero. Non-negativity proper is a property of the input text, not an
invariant the code enforces. -/
theorem c4_precio_no_negativo (a : Articulo) (p : Producto) (t : String)
    (h1 : extraerArticulo a = some p) (h2 : a.textoPrecio = some t)
    (h3 : '-' ∉ t.data) :
    p.precio.negativo = false ∧
    ∀ d, p.precio = ValorFloat.finito d → 0 ≤ d.aRat := by
  simp only [extraerArticulo, Option.bind_eq_some, Option.map_eq_some'] at h1
  obtain ⟨tit, htit, tp, htp, prec, hprec, td, htd, hp⟩ := h1
  rw [h2] at htp
  injection htp with htp
  subst htp
  subst hp
  have hchain := pyFloat_noNeg (pyStripChars (quitarLibras t.data)) prec
    (fun hc => h3 (List.mem_of_mem_filter (mem_de_pyStripChars _ _ hc))) hprec
  exact ⟨hchain.1, fun d hd => aRat_noNeg_de_mant d (hchain.2 d hd)⟩

/-- Claim C4 witness: the corrected statement at the catalog's price
format, where the finite value is non-negative. -/
theorem c4_testigo :
    extraerArticulo articuloA = some productoA ∧
    productoA.precio.negativo = false ∧
    (0 : ℚ) ≤ Decimal.aRat ⟨5177, -2⟩ := by
  have h := c4_precio_no_negativo articuloA productoA "£51.77"
    (by decide) (by decide) (by decide)
  exact ⟨by decide, h.1, h.2 ⟨5177, -2⟩ (by decide)⟩

/-- Claim C5 counterexample: the claim reads parsear_precio as stripping
a single leading currency symbol, under which "10.00£" — symbol
trailing, remainder not numeric — must fail with MalformedPrice. The
code instead removes every occurrence of the symbol and parses
successfully. -/
theorem c5_contraejemplo :
    parsear_precio "10.00£" = some (ValorFloat.finito ⟨1000, -2⟩) := by
  decide

/-- Claim C5 (corrected): parsear_precio removes every occurrence of the
'£' symbol anywhere in the string (not one leading symbol) and strips
surrounding whitespace; on inputs of the form £<digits>.<digits> it
returns the numeric value with the symbol removed, and whenever it
succeeds the remainder is numeric in the sense of Python's float() —
after the Unicode-digit/space-to-ASCII transform and removal of
digit-separating underscores it reads as C whitespace, an optional
sign, and either nan/inf/infinity or a finite decimal literal — so every
input whose remainder admits no such decomposition fails with
MalformedPrice. -/
theorem c5_precio :
    (∀ d1 d2 : List Char, d1 ≠ [] → d2 ≠ [] →
        (∀ c ∈ d1, esDigito c = true) → (∀ c ∈ d2, esDigito c = true) →
        ∃ dec : Decimal,
          parsear_precio (String.mk ('£' :: (d1 ++ '.' :: d2))) =
            some (ValorFloat.finito dec) ∧
          dec.aRat = (valorDigitos d1 : ℚ) +
            (valorDigitos d2 : ℚ) / 10 ^ d2.length) ∧
    (∀ (s : String) (v : ValorFloat), parsear_precio s = some v →
        ∃ csg : List Char,
          quitarGuiones ((pyStripChars (quitarLibras s.data)).map aAscii) =
            some csg ∧
          ∃ cuerpo : List Char, CuerpoNumerico cuerpo ∧
            (stripCon esBlancoC csg = cuerpo ∨
              ∃ sg, (sg = '+' ∨ sg = '-') ∧
                stripCon esBlancoC csg = sg :: cuerpo)) := by
  constructor
  · intro d1 d2 h1 h2 hd1 hd2
    obtain ⟨a, t, rfl⟩ := List.exists_cons_of_ne_nil h1
    have ha := hd1 a (List.mem_cons_self a t)
    have hcar : ∀ c ∈ (a :: t) ++ '.' :: d2, esDigito c = true ∨ c = '.' := by
      intro c hc
      rcases List.mem_append.mp hc with hL | hR
      · exact Or.inl (hd1 c hL)
      · rcases List.mem_cons.mp hR with rfl | hd
        · exact Or.inr rfl
        · exact Or.inl (hd2 c hd)
    have eLib : quitarLibras ('£' :: ((a :: t) ++ '.' :: d2)) =
        (a :: t) ++ '.' :: d2 := by
      unfold quitarLibras
      rw [List.filter_cons]
      have hlib : ('£' != '£') = false := by decide
      rw [hlib]
      simp only [Bool.false_eq_true, if_false]
      refine List.filter_eq_self.mpr ?_
      intro c hc
      rcases hcar c hc with hdig | rfl
      · exact esDigito_no_libra c hdig
      · decide
    have eStrip : pyStripChars ((a :: t) ++ '.' :: d2) =
        (a :: t) ++ '.' :: d2 := by
      refine stripCon_de_ninguno _ _ ?_
      intro c hc
      rcases hcar c hc with hdig | rfl
      · exact esDigito_no_blanco c hdig
      · decide
    have eMap : ((a :: t) ++ '.' :: d2).map aAscii = (a :: t) ++ '.' :: d2 := by
      refine map_fija _ _ ?_
      intro c hc
      rcases hcar c hc with hdig | rfl
      · exact esDigito_aAscii c hdig
      · decide
    have eGui : quitarGuiones ((a :: t) ++ '.' :: d2) =
        some ((a :: t) ++ '.' :: d2) := by
      refine quitarGuiones_sin_guion _ ?_
      intro c hc
      rcases hcar c hc with hdig | rfl
      · exact esDigito_no_guion c hdig
      · decide
    have eStripC : stripCon esBlancoC ((a :: t) ++ '.' :: d2) =
        (a :: t) ++ '.' :: d2 := by
      refine stripCon_de_ninguno _ _ ?_
      intro c hc
      rcases hcar c hc with hdig | rfl
      · exact esDigito_no_blancoC c hdig
      · decide
    have eNeg : signoNeg ((a :: t) ++ '.' :: d2) = false := by
      rw [List.cons_append]
      exact signoNeg_cons _ _ (esDigito_ne a '-' ha (by decide))
    have eResto : signoResto ((a :: t) ++ '.' :: d2) =
        (a :: t) ++ '.' :: d2 := by
      rw [List.cons_append]
      rw [signoResto_sin_signo _ _ (esDigito_ne a '+' ha (by decide))
        (esDigito_ne a '-' ha (by decide))]
    have ha' := esDigito_aMinuscula a ha
    have hnan : ¬(((a :: t) ++ '.' :: d2).map aMinuscula = "nan".data) := by
      intro he
      rw [List.cons_append, List.map_cons,
        show ("nan".data) = ['n', 'a', 'n'] from rfl] at he
      have hh := congrArg List.head? he
      simp only [List.head?_cons] at hh
      injection hh with hh
      rw [ha'] at hh
      subst hh
      exact absurd ha (by decide)
    have hinf : ¬(((a :: t) ++ '.' :: d2).map aMinuscula = "inf".data ∨
        ((a :: t) ++ '.' :: d2).map aMinuscula = "infinity".data) := by
      rintro (he | he) <;>
      · first
        | rw [List.cons_append, List.map_cons,
            show ("inf".data) = ['i', 'n', 'f'] from rfl] at he
        | rw [List.cons_append, List.map_cons,
            show ("infinity".data) =
              ['i', 'n', 'f', 'i', 'n', 'i', 't', 'y'] from rfl] at he
        have hh := congrArg List.head? he
        simp only [List.head?_cons] at hh
        injection hh with hh
        rw [ha'] at hh
        subst hh
        exact absurd ha (by decide)
    have e4 : ((a :: t) ++ '.' :: d2).takeWhile esDigito = a :: t :=
      takeWhile_append_corte _ _ _ hd1 (fun c hc => by
        rw [List.head?_cons] at hc
        injection hc with hc
        subst hc
        decide)
    have e5 : ((a :: t) ++ '.' :: d2).dropWhile esDigito = '.' :: d2 :=
      dropWhile_append_corte _ _ _ hd1 (fun c hc => by
        rw [List.head?_cons] at hc
        injection hc with hc
        subst hc
        decide)
    refine ⟨⟨(valorDigitos (a :: t) * 10 ^ d2.length + valorDigitos d2 : Int),
      -(d2.length : Int)⟩, ?_, aRat_mantexp (valorDigitos (a :: t))
        (valorDigitos d2) d2.length⟩
    show pyFloat (pyStripChars
      (quitarLibras ('£' :: ((a :: t) ++ '.' :: d2)))) = _
    rw [eLib, eStrip]
    unfold pyFloat
    simp only [eMap, eGui]
    rw [eStripC, eNeg, eResto]
    unfold pyFloatNucleo
    rw [if_neg hnan, if_neg hinf]
    simp only [pyFloatDigitos]
    rw [e4, e5]
    simp only [List.head?_cons, List.tail_cons]
    rw [if_pos trivial]
    rw [takeWhile_de_todos _ _ hd2, dropWhile_de_todos _ _ hd2]
    rw [if_neg (fun hx => List.cons_ne_nil a t hx.1)]
    simp only [terminarFloat, aplicarSigno, Bool.false_eq_true, if_false]
    rw [if_pos trivial]
    rfl
  · intro s v h
    exact pyFloat_solo_numerico _ v h

/-- Claim C5 witness: the corrected positive case at the catalog's price
text "£51.77". -/
theorem c5_testigo :
    ∃ dec : Decimal,
      parsear_precio (String.mk ('£' :: ("51".data ++ '.' :: "77".data))) =
        some (ValorFloat.finito dec) ∧
      dec.aRat = (valorDigitos "51".data : ℚ) +
        (valorDigitos "77".data : ℚ) / 10 ^ "77".data.length :=
  c5_precio.1 "51".data "77".data (by decide) (by decide)
    (by decide) (by decide)

/-! ### Crawl lemmas. -/

theorem cadena_crawl (fetch : String → Option Documento) (u : String)
    (ds : List Documento) (h : Cadena fetch u ds) :
    ∀ acc : List Producto,
      crawlGen fetch fetch (ds.length + 1) (some u) acc =
        some (acc ++ (ds.map extraer).flatten) := by
  induction h with
  | falla u hf =>
    intro acc
    simp [crawlGen, scrapear_pagina, siguiente_url, hf]
  | paso u d href ds hf he hr ih =>
    intro acc
    show crawlGen fetch fetch (ds.length + 1 + 1) (some u) acc = _
    have hpaso : crawlGen fetch fetch (ds.length + 1 + 1) (some u) acc =
        crawlGen fetch fetch (ds.length + 1) (siguiente_url fetch u)
          (acc ++ scrapear_pagina fetch u) := rfl
    rw [hpaso]
    have hs : scrapear_pagina fetch u = extraer d := by
      unfold scrapear_pagina
      rw [hf]
    have hn : siguiente_url fetch u =
        some (URL_BASE ++ "catalogue/" ++ href) := by
      simp [siguiente_url, hf, he]
    rw [hs, hn, ih (acc ++ extraer d)]
    simp [List.append_assoc]

theorem crawl_termina_de_cursor (fetch : String → Option Documento) :
    ∀ (k : Nat) (c : Option String) (acc : List Producto),
      cursorN fetch k c = none →
      ∃ res, crawlGen fetch fetch k c acc = some res := by
  intro k
  induction k with
  | zero =>
    intro c acc h
    rw [show cursorN fetch 0 c = c from rfl] at h
    subst h
    exact ⟨acc, rfl⟩
  | succ k ih =>
    intro c acc h
    cases c with
    | none => exact ⟨acc, rfl⟩
    | some url =>
      rw [show cursorN fetch (k + 1) (some url) =
          cursorN fetch k (siguiente_url fetch url) from rfl] at h
      obtain ⟨res, hres⟩ :=
        ih (siguiente_url fetch url) (acc ++ scrapear_pagina fetch url) h
      exact ⟨res, hres⟩

theorem crawlReferencia_cursor_none (fetch : String → Option Documento)
    (n : Nat) (acc : List Producto) :
    crawlReferencia fetch n none acc = some acc := by
  cases n <;> rfl

theorem crawl_igual_referencia (fetch : String → Option Documento) :
    ∀ (n : Nat) (c : Option String) (acc : List Producto),
      crawlGen fetch fetch n c acc = crawlReferencia fetch n c acc := by
  intro n
  induction n with
  | zero =>
    intro c acc
    cases c <;> rfl
  | succ n ih =>
    intro c acc
    cases c with
    | none => rfl
    | some url =>
      show crawlGen fetch fetch n (siguiente_url fetch url)
          (acc ++ scrapear_pagina fetch url) = _
      rw [ih]
      have h3 : crawlReferencia fetch (n + 1) (some url) acc =
          match fetch url with
          | none => some acc
          | some soup =>
            crawlReferencia fetch n
              (soup.enlaceSiguiente.map
                (fun href => URL_BASE ++ "catalogue/" ++ href))
              (acc ++ extraer soup) := rfl
      rw [h3]
      cases hf : fetch url with
      | none =>
        have h1 : scrapear_pagina fetch url = [] := by
          simp [scrapear_pagina, hf]
        have h2 : siguiente_url fetch url = none := by
          simp [siguiente_url, hf]
        rw [h1, h2, List.append_nil, crawlReferencia_cursor_none]
      | some soup =>
        have h1 : scrapear_pagina fetch url = extraer soup := by
          simp [scrapear_pagina, hf]
        have h2 : siguiente_url fetch url =
            soup.enlaceSiguiente.map
              (fun href => URL_BASE ++ "catalogue/" ++ href) := by
          cases he : soup.enlaceSiguiente <;> simp [siguiente_url, hf, he]
        rw [h1, h2]

/-- Claim C1 (confirmed): when fetching succeeds for pages 1..k-1, each
linking to the next, and the fetch of page k fails, the crawl returns
exactly the concatenation, in page order, of the records extracted from
pages 1..k-1; fuel k suffices, i.e. the loop halts at page k, the failing
page contributing zero records and no next link. -/
theorem c1_prefijo_hasta_fallo (fetch : String → Option Documento)
    (ds : List Documento) (h : Cadena fetch URL_INICIAL ds) (_hk : ds ≠ []) :
    obtener_todos_los_productos fetch (ds.length + 1) =
      some ((ds.map extraer).flatten) := by
  unfold obtener_todos_los_productos
  simpa using cadena_crawl fetch URL_INICIAL ds h []

/-- Claim C1 witness: page 1 succeeds with one product and links to page
2, whose fetch fails; the crawl returns page 1's single record. -/
theorem c1_testigo :
    obtener_todos_los_productos fetchFallaP2 2 = some [productoA] := by
  have hC : Cadena fetchFallaP2 URL_INICIAL [documento1] :=
    Cadena.paso URL_INICIAL documento1 "page-2.html" [] (by decide) (by decide)
      (Cadena.falla (URL_BASE ++ "catalogue/" ++ "page-2.html") (by decide))
  exact (c1_prefijo_hasta_fallo fetchFallaP2 [documento1] hC
    (by decide)).trans (by decide)

/-- Claim C6 (confirmed): the loop's only exit is the cursor becoming
none, which happens exactly when the next-link lookup yields nothing
(fetch failure included); whenever the cursor chain from the start URL
reaches none after finitely many steps, the crawl terminates with an
accumulated result. -/
theorem c6_terminacion (fetch : String → Option Documento)
    (h : ∃ k, cursorN fetch k (some URL_INICIAL) = none) :
    (∃ n res, obtener_todos_los_productos fetch n = some res) ∧
    (∀ url, siguiente_url fetch url = none ↔
        (fetch url).bind Documento.enlaceSiguiente = none) := by
  constructor
  · obtain ⟨k, hk⟩ := h
    obtain ⟨res, hres⟩ := crawl_termina_de_cursor fetch k (some URL_INICIAL) [] hk
    exact ⟨k, res, hres⟩
  · intro url
    unfold siguiente_url
    cases hf : fetch url with
    | none => simp
    | some soup =>
      cases he : soup.enlaceSiguiente with
      | none => simp [he]
      | some href => simp [he]

/-- Claim C6 witness: a site whose first page has no next link. -/
theorem c6_testigo :
    cursorN fetchSinSiguiente 1 (some URL_INICIAL) = none ∧
    (∃ n res, obtener_todos_los_productos fetchSinSiguiente n = some res) :=
  ⟨by decide, (c6_terminacion fetchSinSiguiente ⟨1, by decide⟩).1⟩

/-- Claim C7 (confirmed): each loop iteration fetches the current URL
twice — once inside scrapear_pagina, once for the next-link lookup. With
one deterministic fetch function at both call sites the crawl computes
exactly what the reference single-fetch driver computes, for every fuel,
cursor and accumulator; with two independent oracles, the
record-extraction fetch failing on a page does not end the crawl — here
the crawl proceeds past the failed extraction of page 1 and still
collects page 2's record. -/
theorem c7_doble_descarga :
    (∀ (fetch : String → Option Documento) (n : Nat) (c : Option String)
        (acc : List Producto),
        crawlGen fetch fetch n c acc = crawlReferencia fetch n c acc) ∧
    (fetchScrapeEj URL_INICIAL = none ∧
      siguiente_url fetchNextEj URL_INICIAL = some urlPagina2 ∧
      crawlGen fetchScrapeEj fetchNextEj 2 (some URL_INICIAL) [] =
        some [productoB]) :=
  ⟨crawl_igual_referencia, by decide, by decide, by decide⟩

end Scraper
